import Mathlib

/-!
Verification of the completion-synthesis core of the `openai-mock` server.

The definitions below are a shallow embedding of the Rust sources:
  * `src/utils/token_counting.rs` (`TokenCounter`)
  * `src/utils/choices.rs` (`Choice::generate_text`, `Choice::generate_mock_logprobs`,
    `create_choices`)
  * `src/validators/optional_fields.rs`, `src/validators/req_required_fields.rs`
  * `src/handlers/completion_handler.rs` (`completions_handler`)

Text is modelled as `List Char`; machine integers (`u32`, `i32`) as `Nat` / `Int`
(none of the arithmetic here can overflow a 32-bit counter for the inputs we
reason about, and the source performs no wrapping arithmetic); `f32` request
fields as `ℚ` (JSON numbers are finite decimals, and the validators only
compare against small constants); the `tiktoken` byte-pair encoder as an
abstract `BPE` record (an encode map to token ids plus a decode map back to
bytes), with Rust's `String::from_utf8_lossy` modelled concretely by
`utf8Lossy`; the thread-local random generator as an explicit stream `Rng`.
-/

namespace OpenAIMock

/-- Continuation byte of a UTF-8 sequence: `0x80 ..= 0xBF`. -/
def contByte (b : Nat) : Bool := 0x80 ≤ b && b ≤ 0xBF

/-- Allowed first continuation byte after a three-byte leader, per the UTF-8
validity table used by Rust's `core::str` (excludes overlongs and surrogates). -/
def cont3First (b c1 : Nat) : Bool :=
  if b = 0xE0 then 0xA0 ≤ c1 && c1 ≤ 0xBF
  else if b = 0xED then 0x80 ≤ c1 && c1 ≤ 0x9F
  else contByte c1

/-- Allowed first continuation byte after a four-byte leader, per the UTF-8
validity table used by Rust's `core::str` (excludes overlongs and > U+10FFFF). -/
def cont4First (b c1 : Nat) : Bool :=
  if b = 0xF0 then 0x90 ≤ c1 && c1 ≤ 0xBF
  else if b = 0xF4 then 0x80 ≤ c1 && c1 ≤ 0x8F
  else contByte c1

/-- U+FFFD, the replacement character substituted by `String::from_utf8_lossy`. -/
def replacementChar : Char := Char.ofNat 0xFFFD

/-- One pass of lossy UTF-8 decoding, recursing on a fuel counter; every step
consumes at least one byte, so fuel equal to the byte count never runs out. -/
def utf8LossyAux : Nat → List Nat → List Char
  | _, [] => []
  | 0, _ :: _ => []
  | fuel + 1, b :: rest =>
    if b < 0x80 then Char.ofNat b :: utf8LossyAux fuel rest
    else if b < 0xC2 then replacementChar :: utf8LossyAux fuel rest
    else if b ≤ 0xDF then
      match rest with
      | [] => [replacementChar]
      | c1 :: r2 =>
        if contByte c1 then
          Char.ofNat ((b - 0xC0) * 0x40 + (c1 - 0x80)) :: utf8LossyAux fuel r2
        else replacementChar :: utf8LossyAux fuel (c1 :: r2)
    else if b ≤ 0xEF then
      match rest with
      | [] => [replacementChar]
      | c1 :: r2 =>
        if cont3First b c1 then
          match r2 with
          | [] => [replacementChar]
          | c2 :: r3 =>
            if contByte c2 then
              Char.ofNat ((b - 0xE0) * 0x1000 + (c1 - 0x80) * 0x40 + (c2 - 0x80)) ::
                utf8LossyAux fuel r3
            else replacementChar :: utf8LossyAux fuel (c2 :: r3)
        else replacementChar :: utf8LossyAux fuel (c1 :: r2)
    else if b ≤ 0xF4 then
      match rest with
      | [] => [replacementChar]
      | c1 :: r2 =>
        if cont4First b c1 then
          match r2 with
          | [] => [replacementChar]
          | c2 :: r3 =>
            if contByte c2 then
              match r3 with
              | [] => [replacementChar]
              | c3 :: r4 =>
                if contByte c3 then
                  Char.ofNat ((b - 0xF0) * 0x40000 + (c1 - 0x80) * 0x1000 +
                    (c2 - 0x80) * 0x40 + (c3 - 0x80)) :: utf8LossyAux fuel r4
                else replacementChar :: utf8LossyAux fuel (c3 :: r4)
            else replacementChar :: utf8LossyAux fuel (c2 :: r3)
        else replacementChar :: utf8LossyAux fuel (c1 :: r2)
    else replacementChar :: utf8LossyAux fuel rest

/-- Model of Rust's `String::from_utf8_lossy`: decode a byte sequence as UTF-8,
replacing each maximal invalid subsequence with one U+FFFD, resuming at the
byte where the error was detected (Rust's `Utf8Error::error_len` policy). -/
def utf8Lossy (bytes : List Nat) : List Char :=
  utf8LossyAux bytes.length bytes

/-- Abstract byte-pair encoding, the interface of `tiktoken_rs::CoreBPE` used by
`TokenCounter`: `encode` is `encode_ordinary` (text to token ids) and
`decodeBytes` is `decode` (token ids back to raw bytes). -/
structure BPE where
  encode : List Char → List Nat
  decodeBytes : List Nat → List Nat

/-- `TokenCounter::count_tokens`: `self.encoding.encode_ordinary(text).len()`. -/
def countTokens (c : BPE) (text : List Char) : Nat :=
  (c.encode text).length

/-- `TokenCounter::truncate_to_tokens`: encode; if the token count already fits
within `maxTokens` return the text unchanged, otherwise keep the first
`maxTokens` tokens, decode them, and convert lossily back to a string. -/
def truncateToTokens (c : BPE) (text : List Char) (maxTokens : Nat) : List Char :=
  let tokens := c.encode text
  if tokens.length ≤ maxTokens then text
  else utf8Lossy (c.decodeBytes (tokens.take maxTokens))

/-- `TokenCounter::new`'s model-name dispatch: the encoding name chosen by the
`match model` expression in `token_counting.rs` (exact string equality on each
arm, with `cl100k_base` as the catch-all). -/
def encodingNameFor (model : String) : String :=
  if model = "gpt-4" ∨ model = "gpt-3.5-turbo" ∨ model = "text-embedding-ada-002" then
    "cl100k_base"
  else if model = "gpt-4o" ∨ model = "gpt-4o-mini" then
    "o200k_base"
  else if model = "text-davinci-002" ∨ model = "text-davinci-003" then
    "p50k_base"
  else
    "cl100k_base"

/-- `TokenCounter::new`: look up the encoding table for the resolved encoding
name; `tables` stands for `tiktoken_rs::get_encoding`, which may fail, in which
case `new` propagates the error (the `?` operator). -/
def tokenCounterNew (tables : String → Except String BPE) (model : String) :
    Except String BPE :=
  tables (encodingNameFor model)

/-- `Usage` (`models/completion.rs`). -/
structure Usage where
  prompt_tokens : Nat
  completion_tokens : Nat
  total_tokens : Nat
deriving DecidableEq

/-- `TokenCounter::calculate_usage`: counts prompt and completion under the
counter's encoding and totals them. -/
def calculateUsage (c : BPE) (prompt completion : List Char) : Usage :=
  { prompt_tokens := countTokens c prompt
    completion_tokens := countTokens c completion
    total_tokens := countTokens c prompt + countTokens c completion }

/-- `pat.isPrefixOf (s.drop j)`: the pattern occurs in `s` at position `j`. -/
def isPrefixAt (pat s : List Char) (j : Nat) : Bool :=
  List.isPrefixOf pat (s.drop j)

/-- Rust `str::contains` for a string pattern: some position of the haystack
starts with the pattern (an empty pattern matches everywhere). -/
def containsSub (pat : List Char) : List Char → Bool
  | [] => List.isPrefixOf pat []
  | c :: t => List.isPrefixOf pat (c :: t) || containsSub pat t

/-- Rust `s.split(pat).next().unwrap_or("")` for an occurring pattern: the
portion of `s` strictly preceding the first occurrence of `pat`. -/
def beforeFirst (pat : List Char) : List Char → List Char
  | [] => []
  | c :: t =>
    if List.isPrefixOf pat (c :: t) then []
    else c :: beforeFirst pat t

/-- The `for stop_seq in stop_sequences` scan of `Choice::generate_text`: the
first stop sequence, in the order supplied, that occurs in the text. -/
def findStop (text : List Char) : List (List Char) → Option (List Char)
  | [] => none
  | st :: rest => if containsSub st text then some st else findStop text rest

/-- Explicit stream standing in for `rand::thread_rng()`: `fl n` models the
`n`-th `gen_range(0.0..1.0)` draw (scaled by the caller) and `ints n` the
`n`-th integer draw. -/
structure Rng where
  fl : Nat → ℚ
  ints : Nat → Nat

/-- A random stream is valid when every float draw lies in `[0, 1)`, the
contract of `rand`'s `gen_range(0.0..x)` after dividing out the scale. -/
def Rng.Valid (r : Rng) : Prop := ∀ n, 0 ≤ r.fl n ∧ r.fl n < 1

/-- `Logprobs` (`models/completion.rs`); the per-token alternative maps are
association lists standing in for `HashMap<String, f32>`. -/
structure Logprobs where
  tokens : List (List Char)
  token_logprobs : List ℚ
  text_offset : List Nat
  top_logprobs : List (List (String × ℚ))
deriving DecidableEq

/-- `HashMap::insert`: replace the value when the key is present, append the
binding otherwise. -/
def insertAssoc : List (String × ℚ) → String → ℚ → List (String × ℚ)
  | [], k, v => [(k, v)]
  | (k0, v0) :: rest, k, v =>
    if k0 = k then (k, v) :: rest else (k0, v0) :: insertAssoc rest k v

/-- Whitespace split with empty runs skipped, as Rust's `split_whitespace`
(auxiliary accumulator form, accumulating the current token). -/
def wsSplitAux : List Char → List Char → List (List Char)
  | [], acc => if acc.isEmpty then [] else [acc.reverse]
  | c :: t, acc =>
    if c.isWhitespace then
      if acc.isEmpty then wsSplitAux t [] else acc.reverse :: wsSplitAux t []
    else wsSplitAux t (c :: acc)

/-- Rust `str::split_whitespace` collected into a list of tokens. -/
def wsSplit (l : List Char) : List (List Char) := wsSplitAux l []

/-- Rust `str::len` of a token: its UTF-8 byte length. -/
def byteLen (l : List Char) : Nat := l.foldl (fun a c => a + c.utf8Size) 0

/-- The running text offsets of `generate_mock_logprobs`: each token starts at
the running offset, which then advances by the token's byte length plus one
separator character. -/
def offsetsOf (off : Nat) : List (List Char) → List Nat
  | [] => []
  | t :: rest => off :: offsetsOf (off + byteLen t + 1) rest

/-- One per-token alternatives map of `generate_mock_logprobs`: `k` insertions
of `token_<random 0..100>` keys with log-probabilities `-gen_range(0.0..10.0)`,
drawn from the stream starting at index `base`. -/
def mkTopMap (rng : Rng) (base k : Nat) : List (String × ℚ) :=
  (List.range k).foldl
    (fun m j =>
      insertAssoc m ("token_" ++ toString (rng.ints (base + j) % 100))
        (-(10 * rng.fl (base + j))))
    []

/-- `Choice::generate_mock_logprobs`: whitespace tokens of the final text,
running byte offsets, one `-gen_range(0.0..5.0)` log-probability per token, and
one `k`-insertion alternatives map per token. -/
def mockLogprobs (rng : Rng) (text : List Char) (k : Nat) : Logprobs :=
  let tokens := wsSplit text
  { tokens := tokens
    token_logprobs := (List.range tokens.length).map (fun i => -(5 * rng.fl i))
    text_offset := offsetsOf 0 tokens
    top_logprobs :=
      (List.range tokens.length).map (fun i => mkTopMap rng (tokens.length + i * k) k) }

/-- Outcome of `Choice::generate_text` for one choice: the fields of `Choice`
it writes (`text`, `finish_reason`, `logprobs`). -/
structure GenResult where
  text : List Char
  finish_reason : Option String
  logprobs : Option Logprobs
deriving DecidableEq

/-- The seed text of `Choice::generate_text`: the prompt when echoing,
otherwise the empty string. -/
def seedText (echo : Bool) (prompt : List Char) : List Char :=
  if echo then prompt else []

/-- `Choice::generate_text`. `tc` is the result of `TokenCounter::new` for the
request's model. The stop-sequence scan returns immediately with the text
before the first occurrence of the first matching stop sequence; otherwise, if
the counter was constructed and the seed's token count reaches `maxTokens`, the
text is truncated and the function returns with reason `"length"` (a counter
construction error is logged and the length check skipped); otherwise the seed
text is kept, the reason is `"content"`, and mock logprobs are attached when a
count was requested. -/
def generateText (tc : Except String BPE) (rng : Rng) (prompt : List Char)
    (stops : List (List Char)) (maxTokens : Nat) (echo : Bool)
    (logprobsN : Option Nat) : GenResult :=
  let generated := seedText echo prompt
  match findStop generated stops with
  | some st =>
    { text := beforeFirst st generated, finish_reason := some "stop", logprobs := none }
  | none =>
    let lengthHit : Option GenResult :=
      match tc with
      | .ok c =>
        if maxTokens ≤ countTokens c generated then
          some { text := truncateToTokens c generated maxTokens
                 finish_reason := some "length", logprobs := none }
        else none
      | .error _ => none
    match lengthHit with
    | some r => r
    | none =>
      { text := generated
        finish_reason := some "content"
        logprobs := logprobsN.map (fun k => mockLogprobs rng generated k) }

/-- `Choice` (`models/completion.rs`). -/
structure Choice where
  text : List Char
  index : Int
  logprobs : Option Logprobs
  finish_reason : Option String
deriving DecidableEq

/-- `create_choices`: one generated choice per index `0 .. n-1` (an empty list
when `n ≤ 0`); `rngs i` is the state of the thread-local generator when choice
`i` runs. -/
def createChoices (tc : Except String BPE) (rngs : Nat → Rng) (n : Int)
    (prompt : List Char) (stops : List (List Char)) (maxTokens : Nat)
    (echo : Bool) (logprobsN : Option Nat) : List Choice :=
  (List.range n.toNat).map (fun i =>
    let g := generateText tc (rngs i) prompt stops maxTokens echo logprobsN
    { text := g.text, index := (i : Int), logprobs := g.logprobs
      finish_reason := g.finish_reason })

/-- `StopSequence` (`validators/optional_fields.rs`): a single stop string or a
list of stop strings, as deserialized from the polymorphic `stop` field. -/
inductive StopSequence where
  | single (s : String)
  | multiple (v : List String)
deriving DecidableEq

/-- `validate_temperature`: range `[0.0, 2.0]` when present. -/
def validate_temperature (temperature : Option ℚ) : Except String Unit :=
  match temperature with
  | some temp =>
    if temp < 0 ∨ 2 < temp then
      .error ("Temperature must be between 0.0 and 2.0, got " ++ toString temp)
    else .ok ()
  | none => .ok ()

/-- `validate_top_p`: range `[0.0, 1.0]` when present. -/
def validate_top_p (topP : Option ℚ) : Except String Unit :=
  match topP with
  | some p =>
    if p < 0 ∨ 1 < p then
      .error ("Top_p must be between 0.0 and 1.0, got " ++ toString p)
    else .ok ()
  | none => .ok ()

/-- `validate_n`: positivity of the `i32` choice count when present. -/
def validate_n (n : Option Int) : Except String Unit :=
  match n with
  | some value =>
    if value ≤ 0 then
      .error ("n must be a positive integer, got " ++ toString value)
    else .ok ()
  | none => .ok ()

/-- `validate_max_tokens`: positivity of the `u32` token cap when present
(`value <= 0` on an unsigned integer, i.e. `value = 0`). -/
def validate_max_tokens (maxTokens : Option Nat) : Except String Unit :=
  match maxTokens with
  | some value =>
    if value ≤ 0 then
      .error ("max_tokens must be a positive integer, got " ++ toString value)
    else .ok ()
  | none => .ok ()

/-- `validate_presence_penalty`: range `[-2.0, 2.0]` when present. -/
def validate_presence_penalty (penalty : Option ℚ) : Except String Unit :=
  match penalty with
  | some value =>
    if value < -2 ∨ 2 < value then
      .error ("Presence penalty must be between -2.0 and 2.0, got " ++ toString value)
    else .ok ()
  | none => .ok ()

/-- `validate_frequency_penalty`: range `[-2.0, 2.0]` when present. -/
def validate_frequency_penalty (penalty : Option ℚ) : Except String Unit :=
  match penalty with
  | some value =>
    if value < -2 ∨ 2 < value then
      .error ("Frequency penalty must be between -2.0 and 2.0, got " ++ toString value)
    else .ok ()
  | none => .ok ()

/-- `validate_best_of`: positivity, then the relation `best_of ≥ n` when both
are present. -/
def validate_best_of (bestOf n : Option Int) : Except String Unit :=
  match bestOf with
  | some b =>
    if b ≤ 0 then
      .error ("best_of must be a positive integer, got " ++ toString b)
    else
      match n with
      | some nv =>
        if b < nv then
          .error ("best_of must be greater than or equal to n, got best_of=" ++
            toString b ++ " and n=" ++ toString nv)
        else .ok ()
      | none => .ok ()
  | none => .ok ()

/-- `validate_logprobs`: non-negativity of the `u32` count when present (the
comparison `value < 0` on an unsigned integer is always false). -/
def validate_logprobs (logprobs : Option Nat) : Except String Unit :=
  match logprobs with
  | some value =>
    if value < 0 then
      .error ("logprobs must be a non-negative integer, got " ++ toString value)
    else .ok ()
  | none => .ok ()

/-- Index of the first empty stop string, matching the `enumerate` loop of
`validate_stop`. -/
def firstEmptyIdx (i : Nat) : List String → Option Nat
  | [] => none
  | s :: rest => if s.isEmpty then some i else firstEmptyIdx (i + 1) rest

/-- `validate_stop`: a single stop string must be non-empty; a stop array must
be non-empty and contain no empty string (reporting the first empty index). -/
def validate_stop (stop : Option StopSequence) : Except String Unit :=
  match stop with
  | some (.single s) =>
    if s.isEmpty then .error "Stop sequence cannot be empty" else .ok ()
  | some (.multiple seqs) =>
    if seqs.isEmpty then .error "Stop sequences array cannot be empty"
    else
      match firstEmptyIdx 0 seqs with
      | some i =>
        .error ("Stop sequence at index " ++ toString i ++ " cannot be empty")
      | none => .ok ()
  | none => .ok ()

/-- Subset of `serde_json::Value` relevant to the `prompt` field. -/
inductive JsonVal where
  | null
  | bool (b : Bool)
  | num (n : Int)
  | str (s : String)
  | arr (xs : List JsonVal)

/-- The hexadecimal digit characters used by `serde_json` control escapes. -/
def hexDigit (n : Nat) : Char :=
  Char.ofNat (if n < 10 then 48 + n else 87 + n)

/-- `serde_json`'s string escaping for one character: quote, backslash and the
named control escapes, `\u00XX` for other control characters. -/
def escChar (c : Char) : List Char :=
  if c = '"' then ['\\', '"']
  else if c = '\\' then ['\\', '\\']
  else if c = Char.ofNat 8 then ['\\', 'b']
  else if c = Char.ofNat 9 then ['\\', 't']
  else if c = Char.ofNat 10 then ['\\', 'n']
  else if c = Char.ofNat 12 then ['\\', 'f']
  else if c = Char.ofNat 13 then ['\\', 'r']
  else if c.toNat < 32 then
    ['\\', 'u', '0', '0', hexDigit (c.toNat / 16), hexDigit (c.toNat % 16)]
  else [c]

/-- `serde_json` string escaping over a character list. -/
def escString (l : List Char) : List Char := (l.map escChar).flatten

mutual
/-- `serde_json::Value::to_string()`: the compact JSON serialization, as the
characters of the produced string. A JSON string keeps its surrounding double
quotes; `Value::default()` is `null` and prints as `null`. -/
def jsonChars : JsonVal → List Char
  | .null => "null".toList
  | .bool b => if b then "true".toList else "false".toList
  | .num n => (toString n).toList
  | .str s => '"' :: (escString s.toList ++ ['"'])
  | .arr xs => '[' :: (jsonListChars xs ++ [']'])

/-- Comma-separated serialization of a JSON array's elements. -/
def jsonListChars : List JsonVal → List Char
  | [] => []
  | [x] => jsonChars x
  | x :: y :: rest => jsonChars x ++ ',' :: jsonListChars (y :: rest)
end

/-- `CompletionRequest` (`models/completion.rs`): the prompt is held as a raw
JSON value; numeric `f32` fields as rationals; `u32` fields as naturals; `i32`
fields as integers. -/
structure CompletionRequest where
  model : String
  prompt : Option JsonVal
  suffix : Option String
  max_tokens : Option Nat
  temperature : Option ℚ
  top_p : Option ℚ
  n : Option Int
  stream : Option Bool
  logprobs : Option Nat
  echo : Option Bool
  stop : Option StopSequence
  presence_penalty : Option ℚ
  frequency_penalty : Option ℚ
  best_of : Option Int
  user : Option String

/-- Rust `str::trim`: drop whitespace from both ends of the character list. -/
def trimChars (l : List Char) : List Char :=
  ((l.dropWhile Char.isWhitespace).reverse.dropWhile Char.isWhitespace).reverse

/-- `validate_required_fields`: the model name must be non-empty after trimming
surrounding whitespace (`req.model.trim().is_empty()`). -/
def validate_required_fields (req : CompletionRequest) : Except String Unit :=
  if trimChars req.model.toList = [] then .error "model field must not be empty"
  else .ok ()

/-- The `validators` array of `completions_handler`: each optional-field
validator paired with the field name it reports, in source order. -/
def validatorResults (req : CompletionRequest) : List (String × Except String Unit) :=
  [("temperature", validate_temperature req.temperature),
   ("top_p", validate_top_p req.top_p),
   ("n", validate_n req.n),
   ("max_tokens", validate_max_tokens req.max_tokens),
   ("presence_penalty", validate_presence_penalty req.presence_penalty),
   ("frequency_penalty", validate_frequency_penalty req.frequency_penalty),
   ("logprobs", validate_logprobs req.logprobs),
   ("stop", validate_stop req.stop),
   ("best_of", validate_best_of req.best_of req.n)]

/-- The `for (field, result) in validators` loop: the first failing optional
check, as the reported field name and message. -/
def firstOptionalFailure (req : CompletionRequest) : Option (String × String) :=
  (validatorResults req).findSome? (fun fr =>
    match fr.2 with
    | .error m => some (fr.1, m)
    | .ok _ => none)

/-- The first failing check of `completions_handler`: the required-field check
(reported under param `"model"`) followed by the optional checks in priority
order. `none` means the request is valid. -/
def requestFailure (req : CompletionRequest) : Option (String × String) :=
  match validate_required_fields req with
  | .error m => some ("model", m)
  | .ok _ => firstOptionalFailure req

/-- `CompletionResponse` (`models/completion.rs`). -/
structure CompletionResponse where
  id : String
  object : String
  created : Nat
  model : String
  choices : List Choice
  usage : Usage
deriving DecidableEq

/-- Outcome of `completions_handler`: a 400 error body (its `param` and
`message` fields; `type` is always `"invalid_request_error"` and `code` null)
or a 200 response. -/
inductive HandlerResponse where
  | badRequest (param : String) (message : String)
  | ok (resp : CompletionResponse)
deriving DecidableEq

/-- The `match &req.stop` normalization in `completions_handler`: a single stop
string becomes a one-element list, an absent stop an empty list. -/
def stopListOf : Option StopSequence → List String
  | some (.single s) => [s]
  | some (.multiple v) => v
  | none => []

/-- `req.prompt.clone().unwrap_or_default()`: the raw prompt JSON value, `null`
when absent. -/
def promptVal (req : CompletionRequest) : JsonVal := req.prompt.getD .null

/-- `prompt.to_string()`: the JSON serialization of the raw prompt value, which
is the text handed to `create_choices` and to the usage token count. -/
def promptText (req : CompletionRequest) : List Char := jsonChars (promptVal req)

/-- The local `count_tokens` helper of `completion_handler.rs`: the number of
whitespace-separated words (a placeholder, not the tiktoken counter). -/
def wsCount (l : List Char) : Nat := (wsSplit l).length

/-- `completions_handler`. `tables` stands for `tiktoken_rs::get_encoding`,
`rngs i` for the thread-local generator state when choice `i` runs, `uuid` for
the generated UUID and `now` for the current epoch seconds. On the first
failing validation the handler returns the 400 body naming that check's field;
otherwise it generates the requested choices and assembles the response, whose
usage counts come from the local whitespace word counter applied to the
prompt's JSON serialization and from `max_tokens`. -/
def completionsHandler (tables : String → Except String BPE) (rngs : Nat → Rng)
    (uuid : String) (now : Nat) (req : CompletionRequest) : HandlerResponse :=
  match requestFailure req with
  | some (p, m) => .badRequest p m
  | none =>
    let prompt := promptText req
    let maxTokens := req.max_tokens.getD 16
    let n := req.n.getD 1
    let echo := req.echo.getD false
    let stops := (stopListOf req.stop).map String.toList
    let choices := createChoices (tokenCounterNew tables req.model) rngs n prompt
      stops maxTokens echo req.logprobs
    .ok { id := "cmpl-mock-id-" ++ uuid
          object := "text_completion"
          created := now
          model := req.model
          choices := choices
          usage := { prompt_tokens := wsCount prompt
                     completion_tokens := maxTokens
                     total_tokens := wsCount prompt + maxTokens } }

/-! ### Concrete instances used by witnesses and counterexamples -/

/-- A deterministic random stream: every float draw is `0`, every integer draw
is `0`. -/
def rng0 : Rng := { fl := fun _ => 0, ints := fun _ => 0 }

/-- A family of generator states, one per choice index, all equal to `rng0`. -/
def rngsEx : Nat → Rng := fun _ => rng0

/-- A toy encoding with one token per character and identity byte decoding;
round-trips every ASCII text. -/
def asciiBPE : BPE :=
  { encode := fun l => l.map Char.toNat
    decodeBytes := fun ts => ts }

/-- A toy encoding in which `é` (U+00E9) encodes as two tokens whose byte
images are the two halves `0xC3` / `0xA9` of its UTF-8 form, so truncating
between them lands inside a multi-byte character. -/
def splitBPE : BPE :=
  { encode := fun l =>
      (l.map (fun c => if c = Char.ofNat 233 then [1, 2] else [c.toNat])).flatten
    decodeBytes := fun ts =>
      (ts.map (fun t =>
        if t = 1 then [0xC3] else if t = 2 then [0xA9] else [t])).flatten }

/-- An encoding-table environment in which every lookup succeeds with
`asciiBPE`. -/
def tablesEx : String → Except String BPE := fun _ => .ok asciiBPE

/-- A well-formed request: model `gpt-4`, prompt the JSON string `"hello"`,
all optional fields at their deserialization defaults. -/
def baseReq : CompletionRequest :=
  { model := "gpt-4", prompt := some (.str "hello"), suffix := none
    max_tokens := some 16, temperature := some 1, top_p := some 1, n := some 1
    stream := some false, logprobs := none, echo := some false, stop := none
    presence_penalty := some 0, frequency_penalty := some 0, best_of := none
    user := none }

/-- A request in which two optional checks fail: `temperature = 3` (out of
range) and `n = 0` (not positive). -/
def reqBad : CompletionRequest :=
  { baseReq with temperature := some 3, n := some 0, prompt := some (.str "hi") }

/-- A valid request with prompt the JSON string `"a b"` and `max_tokens = 7`. -/
def reqC7 : CompletionRequest :=
  { baseReq with prompt := some (.str "a b"), max_tokens := some 7 }

/-- The response `completions_handler` produces for `reqC7` under `tablesEx`,
`rngsEx`, uuid `u`, timestamp `0`. -/
def respC7 : CompletionResponse :=
  { id := "cmpl-mock-id-u", object := "text_completion", created := 0
    model := "gpt-4"
    choices := [{ text := [], index := 0, logprobs := none
                  finish_reason := some "content" }]
    usage := { prompt_tokens := 2, completion_tokens := 7, total_tokens := 9 } }

/-- The response `completions_handler` produces for `baseReq` under `tablesEx`,
`rngsEx`, uuid `u`, timestamp `0`. -/
def respBase : CompletionResponse :=
  { id := "cmpl-mock-id-u", object := "text_completion", created := 0
    model := "gpt-4"
    choices := [{ text := [], index := 0, logprobs := none
                  finish_reason := some "content" }]
    usage := { prompt_tokens := 1, completion_tokens := 16, total_tokens := 17 } }

/-! ### Helper lemmas -/

/-- A successful stop-sequence scan returns the first list element that occurs
in the text: the scanned list splits at the returned element, everything before
it does not occur. -/
theorem findStop_eq_some_decomp {text t : List Char} :
    ∀ {stops : List (List Char)}, findStop text stops = some t →
      ∃ pre post, stops = pre ++ t :: post ∧
        (∀ u ∈ pre, containsSub u text = false) ∧ containsSub t text = true := by
  intro stops
  induction stops with
  | nil => intro h; simp [findStop] at h
  | cons st rest ih =>
    intro h
    by_cases hc : containsSub st text = true
    · simp [findStop, hc] at h
      exact ⟨[], rest, by simp [h], by simp, h ▸ hc⟩
    · have hcf : containsSub st text = false := by
        cases hx : containsSub st text
        · rfl
        · exact absurd hx hc
      rw [findStop, hcf] at h
      simp at h
      obtain ⟨pre, post, hsplit, hpre, ht⟩ := ih h
      refine ⟨st :: pre, post, by simp [hsplit], ?_, ht⟩
      intro u hu
      rcases List.mem_cons.mp hu with rfl | hu'
      · exact hcf
      · exact hpre u hu'

/-- `beforeFirst` returns exactly the text before the first occurrence of the
pattern: the pattern occurs at the cut position and at no earlier position. -/
theorem beforeFirst_spec (pat : List Char) :
    ∀ s : List Char, containsSub pat s = true →
      isPrefixAt pat s (beforeFirst pat s).length = true ∧
      ∀ j < (beforeFirst pat s).length, isPrefixAt pat s j = false := by
  intro s
  induction s with
  | nil =>
    intro h
    rw [containsSub] at h
    exact ⟨by simpa [isPrefixAt, beforeFirst] using h, by simp [beforeFirst]⟩
  | cons c t ih =>
    intro h
    by_cases hp : List.isPrefixOf pat (c :: t) = true
    · refine ⟨by simp [beforeFirst, hp, isPrefixAt], ?_⟩
      intro j hj
      simp [beforeFirst, hp] at hj
    · have hpf : List.isPrefixOf pat (c :: t) = false := by
        cases hx : List.isPrefixOf pat (c :: t)
        · rfl
        · exact absurd hx hp
      have hct : containsSub pat t = true := by
        rw [containsSub, hpf] at h
        simpa using h
      obtain ⟨h1, h2⟩ := ih hct
      have hbf : beforeFirst pat (c :: t) = c :: beforeFirst pat t := by
        simp [beforeFirst, hpf]
      refine ⟨?_, ?_⟩
      · rw [hbf]
        simpa [isPrefixAt, List.drop_succ_cons] using h1
      · intro j hj
        rw [hbf] at hj
        cases j with
        | zero => simpa [isPrefixAt] using hpf
        | succ k =>
          have hk : k < (beforeFirst pat t).length := by
            simpa using Nat.lt_of_succ_lt_succ hj
          simpa [isPrefixAt, List.drop_succ_cons] using h2 k hk

/-- No non-empty stop sequence occurs in the empty seed text. -/
theorem findStop_nil_of_ne :
    ∀ {stops : List (List Char)}, (∀ s ∈ stops, s ≠ ([] : List Char)) →
      findStop [] stops = none := by
  intro stops
  induction stops with
  | nil => intro _; rfl
  | cons st rest ih =>
    intro h
    have hst : st ≠ [] := h st (by simp)
    have hc : containsSub st [] = false := by
      rw [containsSub]
      cases st with
      | nil => exact absurd rfl hst
      | cons a b => rfl
    rw [findStop, hc]
    simp only [Bool.false_eq_true, if_false]
    exact ih (fun s hs => h s (by simp [hs]))

/-- Evaluation of `generateText` when the counter was constructed and no stop
sequence occurs: the token-length check decides between truncation and the
unmodified seed. -/
theorem generateText_ok_eval (c : BPE) (rng : Rng) (prompt : List Char)
    (stops : List (List Char)) (maxTokens : Nat) (echo : Bool)
    (logprobsN : Option Nat)
    (hnostop : findStop (seedText echo prompt) stops = none) :
    generateText (.ok c) rng prompt stops maxTokens echo logprobsN =
      if maxTokens ≤ countTokens c (seedText echo prompt) then
        { text := truncateToTokens c (seedText echo prompt) maxTokens
          finish_reason := some "length", logprobs := none }
      else
        { text := seedText echo prompt, finish_reason := some "content"
          logprobs := logprobsN.map (fun k => mockLogprobs rng (seedText echo prompt) k) } := by
  by_cases h : maxTokens ≤ countTokens c (seedText echo prompt) <;>
    simp [generateText, hnostop, h]

/-- Evaluation of `generateText` when constructing the counter failed and no
stop sequence occurs: the length check is skipped and the seed is returned with
reason `"content"`. -/
theorem generateText_err_eval (e : String) (rng : Rng) (prompt : List Char)
    (stops : List (List Char)) (maxTokens : Nat) (echo : Bool)
    (logprobsN : Option Nat)
    (hnostop : findStop (seedText echo prompt) stops = none) :
    generateText (.error e) rng prompt stops maxTokens echo logprobsN =
      { text := seedText echo prompt, finish_reason := some "content"
        logprobs := logprobsN.map (fun k => mockLogprobs rng (seedText echo prompt) k) } := by
  simp [generateText, hnostop]

/-- Evaluation of `completionsHandler` on a request whose checks all pass. -/
theorem completionsHandler_ok_eval (tables : String → Except String BPE)
    (rngs : Nat → Rng) (uuid : String) (now : Nat) (req : CompletionRequest)
    (h : requestFailure req = none) :
    completionsHandler tables rngs uuid now req = .ok
      { id := "cmpl-mock-id-" ++ uuid, object := "text_completion", created := now
        model := req.model
        choices := createChoices (tokenCounterNew tables req.model) rngs
          (req.n.getD 1) (promptText req) ((stopListOf req.stop).map String.toList)
          (req.max_tokens.getD 16) (req.echo.getD false) req.logprobs
        usage := { prompt_tokens := wsCount (promptText req)
                   completion_tokens := req.max_tokens.getD 16
                   total_tokens := wsCount (promptText req) + req.max_tokens.getD 16 } } := by
  simp [completionsHandler, h]

/-- Evaluation of `completionsHandler` on a request with a failing check. -/
theorem completionsHandler_bad_eval (tables : String → Except String BPE)
    (rngs : Nat → Rng) (uuid : String) (now : Nat) (req : CompletionRequest)
    (p m : String) (h : requestFailure req = some (p, m)) :
    completionsHandler tables rngs uuid now req = .badRequest p m := by
  simp [completionsHandler, h]

/-! ### Claim theorems -/

/-- C1: if some stop string in the supplied list occurs in the seed text (the
prompt when echoing, the empty string otherwise), then for the first such
string `t` in list order the returned choice text is the portion of the seed
strictly preceding the first occurrence of `t`, the finish reason is `"stop"`,
and no token-length truncation is applied: the result does not depend on the
token counter or on `maxTokens`, which are universally quantified and absent
from the right-hand side. -/
theorem C1_generate_text_stop (tc : Except String BPE) (rng : Rng)
    (prompt : List Char) (stops : List (List Char)) (maxTokens : Nat)
    (echo : Bool) (logprobsN : Option Nat) (t : List Char)
    (hfind : findStop (seedText echo prompt) stops = some t) :
    generateText tc rng prompt stops maxTokens echo logprobsN =
      { text := beforeFirst t (seedText echo prompt)
        finish_reason := some "stop", logprobs := none } ∧
    (∃ pre post, stops = pre ++ t :: post ∧
      (∀ u ∈ pre, containsSub u (seedText echo prompt) = false) ∧
      containsSub t (seedText echo prompt) = true) ∧
    isPrefixAt t (seedText echo prompt)
      (beforeFirst t (seedText echo prompt)).length = true ∧
    (∀ j < (beforeFirst t (seedText echo prompt)).length,
      isPrefixAt t (seedText echo prompt) j = false) := by
  obtain ⟨pre, post, hsplit, hpre, hcont⟩ := findStop_eq_some_decomp hfind
  obtain ⟨h1, h2⟩ := beforeFirst_spec t (seedText echo prompt) hcont
  exact ⟨by simp [generateText, hfind], ⟨pre, post, hsplit, hpre, hcont⟩, h1, h2⟩

/-- C1 witness: with `echo = true`, `stop = ["world"]` and prompt
`"hello world end"` the choice text is `"hello "` and the reason `"stop"`,
even though the token counter could not be constructed. -/
theorem C1_witness :
    findStop (seedText true ("hello world end".toList)) ["world".toList] =
      some ("world".toList) ∧
    generateText (.error "boom") rng0 ("hello world end".toList)
        ["world".toList] 16 true none =
      { text := "hello ".toList, finish_reason := some "stop", logprobs := none } := by
  refine ⟨by decide, ?_⟩
  exact (C1_generate_text_stop (.error "boom") rng0 ("hello world end".toList)
    ["world".toList] 16 true none ("world".toList) (by decide)).1

/-- C2: when no supplied stop sequence occurs in the seed text and the token
counter for the model was constructed with a round-tripping encoding, then if
the seed counts at `maxTokens` tokens or more the returned text is the first
`maxTokens` tokens decoded back to text and the reason is `"length"`, and if
the count is below `maxTokens` the text is the seed unchanged and the reason is
`"content"`. -/
theorem C2_generate_text_length (c : BPE) (rng : Rng) (prompt : List Char)
    (stops : List (List Char)) (maxTokens : Nat) (echo : Bool)
    (logprobsN : Option Nat)
    (hnostop : findStop (seedText echo prompt) stops = none)
    (hround : utf8Lossy (c.decodeBytes (c.encode (seedText echo prompt))) =
      seedText echo prompt) :
    (maxTokens ≤ countTokens c (seedText echo prompt) →
      (generateText (.ok c) rng prompt stops maxTokens echo logprobsN).text =
        utf8Lossy (c.decodeBytes ((c.encode (seedText echo prompt)).take maxTokens)) ∧
      (generateText (.ok c) rng prompt stops maxTokens echo logprobsN).finish_reason =
        some "length") ∧
    (countTokens c (seedText echo prompt) < maxTokens →
      (generateText (.ok c) rng prompt stops maxTokens echo logprobsN).text =
        seedText echo prompt ∧
      (generateText (.ok c) rng prompt stops maxTokens echo logprobsN).finish_reason =
        some "content") := by
  rw [generateText_ok_eval c rng prompt stops maxTokens echo logprobsN hnostop]
  constructor
  · intro hle
    rw [if_pos hle]
    refine ⟨?_, rfl⟩
    by_cases hfit : (c.encode (seedText echo prompt)).length ≤ maxTokens
    · have heq : (c.encode (seedText echo prompt)).length = maxTokens := by
        simp [countTokens] at hle
        omega
      simp only [truncateToTokens, hfit, if_true]
      rw [List.take_of_length_le (le_of_eq heq)]
      exact hround.symm
    · simp [truncateToTokens, hfit]
  · intro hlt
    rw [if_neg (by omega)]
    exact ⟨rfl, rfl⟩

/-- C2 witness: with the character-per-token encoding, seed `"abc"` (echoed
prompt), no stop sequences and `maxTokens = 2`, the seed counts 3 tokens, the
returned text is the 2-token decode `"ab"` and the reason is `"length"`. -/
theorem C2_witness :
    2 ≤ countTokens asciiBPE (seedText true ("abc".toList)) ∧
    (generateText (.ok asciiBPE) rng0 ("abc".toList) [] 2 true none).text =
      "ab".toList ∧
    (generateText (.ok asciiBPE) rng0 ("abc".toList) [] 2 true none).finish_reason =
      some "length" := by
  have h := (C2_generate_text_length asciiBPE rng0 ("abc".toList) [] 2 true none
    (by decide) (by decide)).1 (by decide)
  exact ⟨by decide, h.1.trans (by decide), h.2⟩

/-- C5 counterexample: `"gpt-4o-2024-05-13"` begins with the known identifier
`"gpt-4o"`, whose family is `o200k_base`, yet the dispatch resolves it to the
default `cl100k_base`: the match is exact, not by prefix. -/
theorem C5_counterexample :
    List.isPrefixOf ("gpt-4o".toList) ("gpt-4o-2024-05-13".toList) = true ∧
    encodingNameFor "gpt-4o" = "o200k_base" ∧
    encodingNameFor "gpt-4o-2024-05-13" = "cl100k_base" ∧
    ("cl100k_base" : String) ≠ "o200k_base" := by
  decide

/-- C5 (amended): `TokenCounter::new` selects one of three encoding families by
exact match of the model name against the static table, and every name that
matches no table entry — including names that merely begin with a known
identifier — defaults to `cl100k_base` instead of failing. -/
theorem C5_exact_match_dispatch (model : String)
    (h : model ≠ "gpt-4" ∧ model ≠ "gpt-3.5-turbo" ∧
      model ≠ "text-embedding-ada-002" ∧ model ≠ "gpt-4o" ∧
      model ≠ "gpt-4o-mini" ∧ model ≠ "text-davinci-002" ∧
      model ≠ "text-davinci-003") :
    encodingNameFor model = "cl100k_base" ∧
    encodingNameFor "gpt-4" = "cl100k_base" ∧
    encodingNameFor "gpt-3.5-turbo" = "cl100k_base" ∧
    encodingNameFor "text-embedding-ada-002" = "cl100k_base" ∧
    encodingNameFor "gpt-4o" = "o200k_base" ∧
    encodingNameFor "gpt-4o-mini" = "o200k_base" ∧
    encodingNameFor "text-davinci-002" = "p50k_base" ∧
    encodingNameFor "text-davinci-003" = "p50k_base" := by
  obtain ⟨h1, h2, h3, h4, h5, h6, h7⟩ := h
  refine ⟨?_, by decide, by decide, by decide, by decide, by decide, by decide,
    by decide⟩
  simp [encodingNameFor, h1, h2, h3, h4, h5, h6, h7]

/-- C5 witness: the unrecognized name `"gpt-4o-2024-05-13"` resolves to the
default family. -/
theorem C5_witness : encodingNameFor "gpt-4o-2024-05-13" = "cl100k_base" :=
  (C5_exact_match_dispatch "gpt-4o-2024-05-13" (by decide)).1

/-- C6 counterexample: with an encoding in which `é` (U+00E9) is two tokens
carrying one UTF-8 byte each, truncating `"é"` to 1 token lands inside the
multi-byte character; the decode failure is not surfaced as an error — the
function is total with a plain text result — but silently replaced with the
U+FFFD replacement character, as `String::from_utf8_lossy` does. -/
theorem C6_counterexample :
    countTokens splitBPE [Char.ofNat 233] = 2 ∧
    truncateToTokens splitBPE [Char.ofNat 233] 1 = [replacementChar] ∧
    replacementChar ∉ [Char.ofNat 233] := by
  decide

/-- C6 (amended): for every text whose token count exceeds `maxTokens`,
`truncate_to_tokens` keeps the first `maxTokens` tokens and decodes them back
to text through lossy UTF-8 conversion: invalid byte sequences produced when
truncation lands inside a multi-byte token are replaced with U+FFFD rather than
surfaced as an error. -/
theorem C6_truncate_lossy (c : BPE) (text : List Char) (maxTokens : Nat)
    (h : maxTokens < countTokens c text) :
    truncateToTokens c text maxTokens =
      utf8Lossy (c.decodeBytes ((c.encode text).take maxTokens)) := by
  have hgt : ¬ (c.encode text).length ≤ maxTokens := by
    simp [countTokens] at h
    omega
  simp [truncateToTokens, hgt]

/-- C6 witness: the truncation of `"é"` to one token under `splitBPE`. -/
theorem C6_witness :
    1 < countTokens splitBPE [Char.ofNat 233] ∧
    truncateToTokens splitBPE [Char.ofNat 233] 1 =
      utf8Lossy (splitBPE.decodeBytes ((splitBPE.encode [Char.ofNat 233]).take 1)) :=
  ⟨by decide, C6_truncate_lossy splitBPE [Char.ofNat 233] 1 (by decide)⟩

/-- C8: truncating a text to exactly its own token count is the identity:
the encoded length is not greater than the bound, so the text is returned
unchanged. -/
theorem C8_truncate_roundtrip (c : BPE) (text : List Char) :
    truncateToTokens c text (countTokens c text) = text := by
  simp [truncateToTokens, countTokens]

/-- C9: with `echo = false`, a non-empty prompt, every supplied stop string
non-empty (as validation guarantees), `max_tokens ≥ 1` and an encoding that
sends the empty text to no tokens, the generated choice text is the empty
string and the finish reason is `"content"`: the seed text is empty when not
echoing. -/
theorem C9_no_echo_content (tc : Except String BPE) (rng : Rng)
    (prompt : List Char) (stops : List (List Char)) (maxTokens : Nat)
    (logprobsN : Option Nat)
    (_hprompt : prompt ≠ [])
    (hstops : ∀ s ∈ stops, s ≠ ([] : List Char))
    (hmax : 1 ≤ maxTokens)
    (henc : ∀ c, tc = .ok c → c.encode [] = []) :
    (generateText tc rng prompt stops maxTokens false logprobsN).text = [] ∧
    (generateText tc rng prompt stops maxTokens false logprobsN).finish_reason =
      some "content" := by
  have hseed : seedText false prompt = [] := rfl
  have hnostop : findStop (seedText false prompt) stops = none := by
    rw [hseed]; exact findStop_nil_of_ne hstops
  cases tc with
  | ok c =>
    have hcnt : countTokens c (seedText false prompt) = 0 := by
      simp [countTokens, hseed, henc c rfl]
    rw [generateText_ok_eval c rng prompt stops maxTokens false logprobsN hnostop]
    rw [if_neg (by omega)]
    exact ⟨hseed, rfl⟩
  | error e =>
    rw [generateText_err_eval e rng prompt stops maxTokens false logprobsN hnostop]
    exact ⟨hseed, rfl⟩

/-- C9 witness: prompt `"hi"`, stop list `["x"]`, `max_tokens = 16`, `echo`
off: the choice text is empty with reason `"content"`. -/
theorem C9_witness :
    (generateText (.ok asciiBPE) rng0 ("hi".toList) ["x".toList] 16 false none).text =
      [] ∧
    (generateText (.ok asciiBPE) rng0 ("hi".toList) ["x".toList] 16 false none).finish_reason =
      some "content" :=
  C9_no_echo_content (.ok asciiBPE) rng0 ("hi".toList) ["x".toList] 16 none
    (by decide) (by decide) (by decide)
    (fun c h => by cases h; rfl)

/-- Every binding of a map after one insertion satisfies a property that holds
for the previous bindings and for the inserted pair. -/
theorem insertAssoc_forall {P : String × ℚ → Prop} :
    ∀ (m : List (String × ℚ)) (key : String) (v : ℚ),
      (∀ kv ∈ m, P kv) → P (key, v) → ∀ kv ∈ insertAssoc m key v, P kv := by
  intro m
  induction m with
  | nil =>
    intro key v _ hkv kv hmem
    simp [insertAssoc] at hmem
    exact hmem ▸ hkv
  | cons p rest ih =>
    intro key v hm hkv kv hmem
    rw [show insertAssoc (p :: rest) key v =
        (if p.1 = key then (key, v) :: rest
         else p :: insertAssoc rest key v) from by
      cases p; rfl] at hmem
    by_cases hk : p.1 = key
    · rw [if_pos hk] at hmem
      rcases List.mem_cons.mp hmem with rfl | hmem'
      · exact hkv
      · exact hm kv (List.mem_cons_of_mem p hmem')
    · rw [if_neg hk] at hmem
      rcases List.mem_cons.mp hmem with rfl | hmem'
      · exact hm _ (List.mem_cons_self _ _)
      · exact ih key v (fun q hq => hm q (List.mem_cons_of_mem _ hq)) hkv kv hmem'

/-- One insertion grows a map by at most one binding. -/
theorem insertAssoc_length :
    ∀ (m : List (String × ℚ)) (key : String) (v : ℚ),
      (insertAssoc m key v).length ≤ m.length + 1 := by
  intro m
  induction m with
  | nil => intro key v; simp [insertAssoc]
  | cons p rest ih =>
    intro key v
    rw [show insertAssoc (p :: rest) key v =
        (if p.1 = key then (key, v) :: rest
         else p :: insertAssoc rest key v) from by
      cases p; rfl]
    by_cases hk : p.1 = key
    · simp [hk]
    · simp only [if_neg hk, List.length_cons]
      have := ih key v
      omega

/-- Folding the mock alternative-token insertions over any index list yields a
map of at most that many extra bindings, every binding carrying a
`token_<r>` key with `r < 100` and a value in `(-10, 0]`. -/
theorem foldl_topmap_spec (rng : Rng) (hrng : Rng.Valid rng) (base : Nat) :
    ∀ (js : List Nat) (m0 : List (String × ℚ)),
      (∀ kv ∈ m0, (∃ r, r < 100 ∧ kv.1 = "token_" ++ toString r) ∧
        (-10 < kv.2 ∧ kv.2 ≤ 0)) →
      ((js.foldl (fun m j =>
          insertAssoc m ("token_" ++ toString (rng.ints (base + j) % 100))
            (-(10 * rng.fl (base + j)))) m0).length ≤ m0.length + js.length ∧
       ∀ kv ∈ js.foldl (fun m j =>
          insertAssoc m ("token_" ++ toString (rng.ints (base + j) % 100))
            (-(10 * rng.fl (base + j)))) m0,
         (∃ r, r < 100 ∧ kv.1 = "token_" ++ toString r) ∧
         (-10 < kv.2 ∧ kv.2 ≤ 0)) := by
  intro js
  induction js with
  | nil => intro m0 hm0; simpa using hm0
  | cons j rest ih =>
    intro m0 hm0
    have hstep : (∃ r, r < 100 ∧
        ("token_" ++ toString (rng.ints (base + j) % 100) : String) =
          "token_" ++ toString r) ∧
        (-10 < -(10 * rng.fl (base + j)) ∧ -(10 * rng.fl (base + j)) ≤ 0) := by
      refine ⟨⟨rng.ints (base + j) % 100, Nat.mod_lt _ (by norm_num), rfl⟩, ?_, ?_⟩
      · have := (hrng (base + j)).2
        nlinarith
      · have := (hrng (base + j)).1
        nlinarith
    have hm1 : ∀ kv ∈ insertAssoc m0
        ("token_" ++ toString (rng.ints (base + j) % 100))
        (-(10 * rng.fl (base + j))),
        (∃ r, r < 100 ∧ kv.1 = "token_" ++ toString r) ∧
        (-10 < kv.2 ∧ kv.2 ≤ 0) :=
      insertAssoc_forall m0 _ _ hm0 hstep
    obtain ⟨hlen, hall⟩ := ih _ hm1
    refine ⟨?_, by simpa [List.foldl_cons] using hall⟩
    have hins := insertAssoc_length m0
      ("token_" ++ toString (rng.ints (base + j) % 100)) (-(10 * rng.fl (base + j)))
    simp only [List.foldl_cons, List.length_cons]
    omega

/-- Every per-token alternatives map built by `mkTopMap` from a valid stream
has at most `k` bindings, each named `token_<r>` with `r < 100` and valued in
`(-10, 0]`. -/
theorem mkTopMap_spec (rng : Rng) (hrng : Rng.Valid rng) (base k : Nat) :
    (mkTopMap rng base k).length ≤ k ∧
    ∀ kv ∈ mkTopMap rng base k,
      (∃ r, r < 100 ∧ kv.1 = "token_" ++ toString r) ∧
      (-10 < kv.2 ∧ kv.2 ≤ 0) := by
  have h := foldl_topmap_spec rng hrng base (List.range k) [] (by simp)
  simpa [mkTopMap] using h

/-- C3 counterexample: a logprobs count of 1 is requested, a stop sequence
matches, and the returned choice carries no logprobs at all — the mock logprobs
are attached only on the `"content"` path, not for every finish reason as
claimed (both the `"stop"` and `"length"` branches return early). -/
theorem C3_counterexample :
    (generateText (.error "boom") rng0 ("stop here".toList) ["here".toList]
      16 true (some 1)).finish_reason = some "stop" ∧
    (generateText (.error "boom") rng0 ("stop here".toList) ["here".toList]
      16 true (some 1)).logprobs = none := by
  decide

/-- C3 (amended): whenever a logprobs count `k` is requested and the choice
finishes with reason `"content"` (no stop sequence occurred and the token count
is below `max_tokens`, or the counter failed to construct), the returned choice
carries mock logprobs built from its final text: whitespace-split tokens, a
running offset per token advancing by the token's byte length plus one
separator, a log-probability in `(-5, 0]` per token, and per token a map of at
most `k` synthesized alternatives named `token_<r>` with `r < 100` and
log-probabilities in `(-10, 0]`. Choices finishing `"stop"` or `"length"`
return before this step and carry no logprobs. -/
theorem C3_content_logprobs (tc : Except String BPE) (rng : Rng)
    (prompt : List Char) (stops : List (List Char)) (maxTokens : Nat)
    (echo : Bool) (k : Nat)
    (hrng : Rng.Valid rng)
    (hnostop : findStop (seedText echo prompt) stops = none)
    (hlen : ∀ c, tc = .ok c → countTokens c (seedText echo prompt) < maxTokens) :
    generateText tc rng prompt stops maxTokens echo (some k) =
      { text := seedText echo prompt, finish_reason := some "content"
        logprobs := some (mockLogprobs rng (seedText echo prompt) k) } ∧
    (mockLogprobs rng (seedText echo prompt) k).tokens =
      wsSplit (seedText echo prompt) ∧
    (mockLogprobs rng (seedText echo prompt) k).text_offset =
      offsetsOf 0 (wsSplit (seedText echo prompt)) ∧
    (mockLogprobs rng (seedText echo prompt) k).token_logprobs.length =
      (wsSplit (seedText echo prompt)).length ∧
    (∀ q ∈ (mockLogprobs rng (seedText echo prompt) k).token_logprobs,
      -5 < q ∧ q ≤ 0) ∧
    (mockLogprobs rng (seedText echo prompt) k).top_logprobs.length =
      (wsSplit (seedText echo prompt)).length ∧
    (∀ mp ∈ (mockLogprobs rng (seedText echo prompt) k).top_logprobs,
      mp.length ≤ k ∧
      ∀ kv ∈ mp, (∃ r, r < 100 ∧ kv.1 = "token_" ++ toString r) ∧
        (-10 < kv.2 ∧ kv.2 ≤ 0)) := by
  refine ⟨?_, rfl, rfl, by simp [mockLogprobs], ?_, by simp [mockLogprobs], ?_⟩
  · cases tc with
    | ok c =>
      rw [generateText_ok_eval c rng prompt stops maxTokens echo (some k) hnostop]
      rw [if_neg (by have := hlen c rfl; omega)]
      rfl
    | error e =>
      rw [generateText_err_eval e rng prompt stops maxTokens echo (some k) hnostop]
      rfl
  · intro q hq
    simp [mockLogprobs] at hq
    obtain ⟨i, _, rfl⟩ := hq
    have h0 := (hrng i).1
    have h1 := (hrng i).2
    constructor <;> nlinarith
  · intro mp hmp
    simp [mockLogprobs] at hmp
    obtain ⟨i, _, rfl⟩ := hmp
    exact mkTopMap_spec rng hrng _ k

/-- C3 witness: seed `"hi there"` (echoed), no stop sequences, count 8 below
`max_tokens = 16`, logprobs count 2: the choice finishes `"content"` and
carries the mock logprobs. -/
theorem C3_witness :
    Rng.Valid rng0 ∧
    generateText (.ok asciiBPE) rng0 ("hi there".toList) [] 16 true (some 2) =
      { text := "hi there".toList, finish_reason := some "content"
        logprobs := some (mockLogprobs rng0 ("hi there".toList) 2) } := by
  have hv : Rng.Valid rng0 := fun n => by constructor <;> norm_num [rng0]
  refine ⟨hv, ?_⟩
  exact (C3_content_logprobs (.ok asciiBPE) rng0 ("hi there".toList) [] 16 true 2
    hv (by decide) (fun c h => by cases h; decide)).1

/-- A successful scan of the validator array splits it at the reported entry:
every earlier validator passed and the reported one failed with the reported
message. -/
theorem findSome_failure_decomp :
    ∀ (l : List (String × Except String Unit)) (p m : String),
      l.findSome? (fun fr =>
        match fr.2 with
        | .error msg => some (fr.1, msg)
        | .ok _ => none) = some (p, m) →
      ∃ pre post, l = pre ++ (p, .error m) :: post ∧
        ∀ q ∈ pre, q.2 = .ok () := by
  intro l
  induction l with
  | nil => intro p m h; simp [List.findSome?] at h
  | cons fr rest ih =>
    intro p m h
    obtain ⟨name, res⟩ := fr
    cases res with
    | error msg =>
      rw [List.findSome?_cons] at h
      simp at h
      exact ⟨[], rest, by simp [h.1, h.2], by simp⟩
    | ok u =>
      rw [List.findSome?_cons] at h
      simp at h
      obtain ⟨pre, post, hsplit, hpre⟩ := ih p m h
      refine ⟨(name, .ok u) :: pre, post, by simp [hsplit], ?_⟩
      intro q hq
      rcases List.mem_cons.mp hq with rfl | hq'
      · rfl
      · exact hpre q hq'

/-- C4: the handler's response is a 400 naming param `p` with message `m`
exactly when the priority-order scan (required model check first, then the
optional validators in the array's order) reports `(p, m)` as its first
failure; a reported failure splits the validator array with every earlier
check passing; and whenever any check fails no response with choices is
produced. -/
theorem C4_first_failure (tables : String → Except String BPE) (rngs : Nat → Rng)
    (uuid : String) (now : Nat) (req : CompletionRequest) :
    (∀ p m, completionsHandler tables rngs uuid now req = .badRequest p m ↔
      requestFailure req = some (p, m)) ∧
    (∀ p m, requestFailure req = some (p, m) →
      (validate_required_fields req = .error m ∧ p = "model") ∨
      (validate_required_fields req = .ok () ∧
        ∃ pre post, validatorResults req = pre ++ (p, .error m) :: post ∧
          ∀ q ∈ pre, q.2 = .ok ())) ∧
    (∀ p m, requestFailure req = some (p, m) →
      ∀ resp, completionsHandler tables rngs uuid now req ≠ .ok resp) ∧
    (requestFailure req = none →
      ∃ resp, completionsHandler tables rngs uuid now req = .ok resp) := by
  refine ⟨?_, ?_, ?_, ?_⟩
  · intro p m
    constructor
    · intro hbr
      cases h : requestFailure req with
      | none =>
        rw [completionsHandler_ok_eval tables rngs uuid now req h] at hbr
        exact absurd hbr (by simp)
      | some pm =>
        obtain ⟨p0, m0⟩ := pm
        rw [completionsHandler_bad_eval tables rngs uuid now req p0 m0 h] at hbr
        simp only [HandlerResponse.badRequest.injEq] at hbr
        rw [hbr.1, hbr.2]
    · intro h
      exact completionsHandler_bad_eval tables rngs uuid now req p m h
  · intro p m h
    rw [requestFailure] at h
    cases hreq : validate_required_fields req with
    | error msg =>
      rw [hreq] at h
      have h' : some ("model", msg) = some (p, m) := h
      simp only [Option.some.injEq, Prod.mk.injEq] at h'
      refine Or.inl ⟨?_, h'.1.symm⟩
      rw [h'.2]
    | ok u =>
      cases u
      rw [hreq] at h
      have h' : (validatorResults req).findSome? (fun fr =>
          match fr.2 with
          | .error m => some (fr.1, m)
          | .ok _ => none) = some (p, m) := h
      exact Or.inr ⟨rfl, findSome_failure_decomp _ p m h'⟩
  · intro p m h resp
    rw [completionsHandler_bad_eval tables rngs uuid now req p m h]
    simp
  · intro h
    exact ⟨_, completionsHandler_ok_eval tables rngs uuid now req h⟩

/-- C4 witness: in `reqBad` both `temperature = 3` and `n = 0` fail; the
response is a 400 whose param is `temperature`, the first failing field in
priority order, with the out-of-range value interpolated. -/
theorem C4_witness :
    requestFailure reqBad =
      some ("temperature", "Temperature must be between 0.0 and 2.0, got 3") ∧
    completionsHandler tablesEx rngsEx "u" 0 reqBad =
      .badRequest "temperature" "Temperature must be between 0.0 and 2.0, got 3" := by
  refine ⟨by decide, ?_⟩
  exact ((C4_first_failure tablesEx rngsEx "u" 0 reqBad).1 "temperature"
    "Temperature must be between 0.0 and 2.0, got 3").mpr (by decide)

/-- C7 counterexample: for the valid request `reqC7` (prompt the JSON string
`"a b"`, `max_tokens = 7`, echo off) the reply's usage is
`prompt_tokens = 2` (whitespace words of the serialized prompt `"a b"` with its
quotes), `completion_tokens = 7` (the request's `max_tokens`), `total = 9` —
while the TokenCounter counts of the prompt text (5) and of the empty
completion text (0) differ from both, so the usage does not come from the
TokenCounter. -/
theorem C7_counterexample :
    completionsHandler tablesEx rngsEx "u" 0 reqC7 = .ok respC7 ∧
    respC7.usage.prompt_tokens = 2 ∧
    respC7.usage.completion_tokens = 7 ∧
    (respC7.choices.map (fun c => c.text)) = [[]] ∧
    countTokens asciiBPE (promptText reqC7) = 5 ∧
    countTokens asciiBPE [] = 0 ∧
    (2 : Nat) ≠ 5 ∧ (7 : Nat) ≠ 0 := by
  decide

/-- C7 (amended): for every successful response the usage counts come from the
handler's local whitespace word counter, not the TokenCounter: `prompt_tokens`
is the number of whitespace-separated words of the prompt's JSON serialization,
`completion_tokens` is the request's `max_tokens` (default 16), and
`total_tokens` is their sum. -/
theorem C7_usage_source (tables : String → Except String BPE) (rngs : Nat → Rng)
    (uuid : String) (now : Nat) (req : CompletionRequest)
    (resp : CompletionResponse)
    (hok : completionsHandler tables rngs uuid now req = .ok resp) :
    resp.usage =
      { prompt_tokens := wsCount (promptText req)
        completion_tokens := req.max_tokens.getD 16
        total_tokens := wsCount (promptText req) + req.max_tokens.getD 16 } := by
  cases h : requestFailure req with
  | none =>
    rw [completionsHandler_ok_eval tables rngs uuid now req h] at hok
    simp only [HandlerResponse.ok.injEq] at hok
    rw [← hok]
  | some pm =>
    obtain ⟨p0, m0⟩ := pm
    rw [completionsHandler_bad_eval tables rngs uuid now req p0 m0 h] at hok
    exact absurd hok (by simp)

/-- C7 witness: the usage of the response to `reqC7`. -/
theorem C7_witness :
    respC7.usage =
      { prompt_tokens := wsCount (promptText reqC7)
        completion_tokens := reqC7.max_tokens.getD 16
        total_tokens := wsCount (promptText reqC7) + reqC7.max_tokens.getD 16 } :=
  C7_usage_source tablesEx rngsEx "u" 0 reqC7 respC7 (by decide)

/-- C10: when the request's prompt is the JSON string `"hello"`, the text used
for choice generation and for the usage prompt count is the prompt value's JSON
serialization — the seven characters `"hello"` including both double quotes —
not the five-character `hello`. -/
theorem C10_prompt_raw_json (tables : String → Except String BPE)
    (rngs : Nat → Rng) (uuid : String) (now : Nat) (req : CompletionRequest)
    (resp : CompletionResponse)
    (hp : req.prompt = some (.str "hello"))
    (hok : completionsHandler tables rngs uuid now req = .ok resp) :
    promptText req = ['"', 'h', 'e', 'l', 'l', 'o', '"'] ∧
    (promptText req).length = 7 ∧
    resp.choices = createChoices (tokenCounterNew tables req.model) rngs
      (req.n.getD 1) (promptText req) ((stopListOf req.stop).map String.toList)
      (req.max_tokens.getD 16) (req.echo.getD false) req.logprobs ∧
    resp.usage.prompt_tokens = wsCount (promptText req) := by
  have hpt : promptText req = ['"', 'h', 'e', 'l', 'l', 'o', '"'] := by
    rw [promptText, promptVal, hp]
    rfl
  cases h : requestFailure req with
  | none =>
    rw [completionsHandler_ok_eval tables rngs uuid now req h] at hok
    simp only [HandlerResponse.ok.injEq] at hok
    exact ⟨hpt, by rw [hpt]; rfl, by rw [← hok], by rw [← hok]⟩
  | some pm =>
    obtain ⟨p0, m0⟩ := pm
    rw [completionsHandler_bad_eval tables rngs uuid now req p0 m0 h] at hok
    exact absurd hok (by simp)

/-- C10 witness: for `baseReq` (prompt the JSON string `"hello"`) the seed text
is the seven characters including quotes, and the response counts one
whitespace word of it. -/
theorem C10_witness :
    promptText baseReq = ['"', 'h', 'e', 'l', 'l', 'o', '"'] ∧
    (promptText baseReq).length = 7 ∧
    respBase.choices = createChoices (tokenCounterNew tablesEx baseReq.model)
      rngsEx (baseReq.n.getD 1) (promptText baseReq)
      ((stopListOf baseReq.stop).map String.toList) (baseReq.max_tokens.getD 16)
      (baseReq.echo.getD false) baseReq.logprobs ∧
    respBase.usage.prompt_tokens = wsCount (promptText baseReq) :=
  C10_prompt_raw_json tablesEx rngsEx "u" 0 baseReq respBase rfl (by decide)

end OpenAIMock
